import Mathlib

/-!
Shallow embedding of the attendance server (src/server.js) and proofs of the
specification's claims about it.

The write path (POST /attendance) is modelled by `recordAction`, the read path
(GET /admin, GET /download-report) by `queryRange`, `adminDates`,
`generateReport` and `downloadReportHandler`.  The SQLite table is modelled as
a list of rows plus the AUTOINCREMENT counter.  The moment-timezone clock is
modelled by passing the date and time strings it would produce as parameters.
-/

namespace Attendance

/-- One row of the `attendance` table (src/server.js:33-39): auto-assigned
integer primary key, employee name, date, and two nullable TEXT time fields. -/
structure AttendanceRecord where
  id : Nat
  employeeName : String
  date : String
  checkIn : Option String
  checkOut : Option String
  deriving Repr, DecidableEq

/-- The database: the rows of the `attendance` table in insertion (rowid)
order, plus the next AUTOINCREMENT id. -/
structure DB where
  rows : List AttendanceRecord
  nextId : Nat
  deriving Repr, DecidableEq

/-- A freshly created table (SQLite AUTOINCREMENT starts at 1). -/
def emptyDB : DB := { rows := [], nextId := 1 }

/-- The two valid values of the `action` form field (src/server.js:59). -/
inductive Action where
  | checkIn
  | checkOut
  deriving Repr, DecidableEq

/-- The column a valid action writes. -/
def Action.column : Action → String
  | .checkIn => "checkIn"
  | .checkOut => "checkOut"

/-- The complementary action. -/
def Action.other : Action → Action
  | .checkIn => .checkOut
  | .checkOut => .checkIn

/-- JavaScript truthiness of a nullable TEXT value, as used by the guards
`row.checkIn && row.checkOut` etc. (src/server.js:87-95): NULL and the empty
string are falsy, every other string is truthy. -/
def truthy : Option String → Bool
  | none => false
  | some s => s != ""

/-- Read the time field a given action governs. -/
def getField : Action → AttendanceRecord → Option String
  | .checkIn, r => r.checkIn
  | .checkOut, r => r.checkOut

/-- Write the time field a given action governs, leaving everything else. -/
def setField (a : Action) (time : String) (r : AttendanceRecord) : AttendanceRecord :=
  match a with
  | .checkIn => { r with checkIn := some time }
  | .checkOut => { r with checkOut := some time }

/-- `db.get('SELECT * FROM attendance WHERE employeeName = ? AND date = ?')`
(src/server.js:64-67): the first row, in rowid order, matching both equalities
(SQLite TEXT equality is exact, case-sensitive). -/
def findByEmployeeAndDate (rows : List AttendanceRecord) (name date : String) :
    Option AttendanceRecord :=
  rows.find? (fun r => r.employeeName == name && r.date == date)

/-- The INSERT of the no-existing-row branch (src/server.js:74-77) for a valid
action: a new row with the action's column set to `time`, the other NULL, and
the next AUTOINCREMENT id. -/
def insert (st : DB) (name date : String) (a : Action) (time : String) : DB :=
  { rows := st.rows ++
      [{ id := st.nextId
         employeeName := name
         date := date
         checkIn := if a = Action.checkIn then some time else none
         checkOut := if a = Action.checkOut then some time else none }]
    nextId := st.nextId + 1 }

/-- `UPDATE attendance SET <column> = ? WHERE id = ?` (src/server.js:98-101)
for a valid action: every row whose id matches gets the action's field set. -/
def updateField (st : DB) (rid : Nat) (a : Action) (time : String) : DB :=
  { st with rows := st.rows.map (fun r => if r.id == rid then setField a time r else r) }

/-- What the POST /attendance handler sends back: the success page (rendered
both after an insert and after an update) or the `already` page with one of
three messages. -/
inductive Outcome where
  | created
  | updated
  | rejected (message : String)
  deriving Repr, DecidableEq

/-- The POST /attendance handler (src/server.js:57-113) for a valid action.
`date` and `time` stand for the moment-timezone clock outputs of lines 60-61.
The branch structure mirrors the source: no row → insert; row with both fields
truthy → combined rejection; row with the submitted action's field truthy →
action-specific rejection; otherwise update. -/
def recordAction (st : DB) (employeeName : String) (a : Action) (date time : String) :
    DB × Outcome :=
  match findByEmployeeAndDate st.rows employeeName date with
  | none => (insert st employeeName date a time, Outcome.created)
  | some row =>
    if truthy row.checkIn && truthy row.checkOut then
      (st, Outcome.rejected "You have already checked in and out for today.")
    else if a == Action.checkIn && truthy row.checkIn then
      (st, Outcome.rejected "You have already checked in for today.")
    else if a == Action.checkOut && truthy row.checkOut then
      (st, Outcome.rejected "You have already checked out for today.")
    else
      (updateField st row.id a time, Outcome.updated)

/-- The action-specific rejection message (src/server.js:92,95). -/
def specificMessage : Action → String
  | .checkIn => "You have already checked in for today."
  | .checkOut => "You have already checked out for today."

/-- One submission to POST /attendance: the form fields plus the clock outputs
observed while handling it. -/
structure Request where
  employeeName : String
  action : Action
  date : String
  time : String

/-- Run a sequence of submissions, threading the database through. -/
def runRequests (st : DB) : List Request → DB
  | [] => st
  | q :: qs => runRequests (recordAction st q.employeeName q.action q.date q.time).1 qs

/-- Number of rows for a given (employeeName, date) pair. -/
def countKey (st : DB) (name date : String) : Nat :=
  (st.rows.filter (fun r => r.employeeName == name && r.date == date)).length

/-- Rows have pairwise distinct (employeeName, date) keys. -/
def KeyUnique (st : DB) : Prop :=
  st.rows.Pairwise (fun r s => ¬(r.employeeName = s.employeeName ∧ r.date = s.date))

/-- Every stored id is below the AUTOINCREMENT counter. -/
def IdBound (st : DB) : Prop := ∀ r ∈ st.rows, r.id < st.nextId

/-- Rows have pairwise distinct ids. -/
def IdUnique (st : DB) : Prop := st.rows.Pairwise (fun r s => r.id ≠ s.id)

/-- The store invariant maintained by the write path. -/
def Inv (st : DB) : Prop := KeyUnique st ∧ IdBound st ∧ IdUnique st

theorem setField_id (a : Action) (t : String) (r : AttendanceRecord) :
    (setField a t r).id = r.id := by
  cases a <;> rfl

theorem setField_employeeName (a : Action) (t : String) (r : AttendanceRecord) :
    (setField a t r).employeeName = r.employeeName := by
  cases a <;> rfl

theorem setField_date (a : Action) (t : String) (r : AttendanceRecord) :
    (setField a t r).date = r.date := by
  cases a <;> rfl

theorem getField_setField_same (a : Action) (t : String) (r : AttendanceRecord) :
    getField a (setField a t r) = some t := by
  cases a <;> rfl

theorem getField_setField_other (f a : Action) (t : String) (r : AttendanceRecord)
    (h : f ≠ a) : getField f (setField a t r) = getField f r := by
  cases a <;> cases f <;> simp_all [setField, getField]

/-- The row rewriting function of `updateField` preserves id, name and date. -/
theorem updateFun_preserves (rid : Nat) (a : Action) (t : String) (r : AttendanceRecord) :
    (if r.id == rid then setField a t r else r).id = r.id ∧
    (if r.id == rid then setField a t r else r).employeeName = r.employeeName ∧
    (if r.id == rid then setField a t r else r).date = r.date := by
  split <;> simp [setField_id, setField_employeeName, setField_date]

theorem inv_emptyDB : Inv emptyDB := by
  refine ⟨List.Pairwise.nil, ?_, List.Pairwise.nil⟩
  intro r hr
  simp [emptyDB] at hr

theorem inv_insert (st : DB) (h : Inv st) (name date : String) (a : Action) (time : String)
    (hfind : findByEmployeeAndDate st.rows name date = none) :
    Inv (insert st name date a time) := by
  obtain ⟨hkey, hbound, hid⟩ := h
  have hnone : ∀ r ∈ st.rows, ¬(r.employeeName = name ∧ r.date = date) := by
    intro r hr
    have := List.find?_eq_none.mp hfind r hr
    simpa using this
  refine ⟨?_, ?_, ?_⟩
  · unfold KeyUnique insert
    rw [List.pairwise_append]
    refine ⟨hkey, by simp, ?_⟩
    intro r hr b hb
    simp only [List.mem_singleton] at hb
    subst hb
    simpa using hnone r hr
  · intro r hr
    simp only [insert, List.mem_append, List.mem_singleton] at hr
    rcases hr with hr | hr
    · exact Nat.lt_succ_of_lt (hbound r hr)
    · subst hr; exact Nat.lt_succ_self _
  · unfold IdUnique insert
    rw [List.pairwise_append]
    refine ⟨hid, by simp, ?_⟩
    intro r hr b hb
    simp only [List.mem_singleton] at hb
    subst hb
    exact fun he => absurd he (Nat.ne_of_lt (hbound r hr))

theorem inv_updateField (st : DB) (h : Inv st) (rid : Nat) (a : Action) (time : String) :
    Inv (updateField st rid a time) := by
  obtain ⟨hkey, hbound, hid⟩ := h
  refine ⟨?_, ?_, ?_⟩
  · unfold KeyUnique updateField
    simp only
    rw [List.pairwise_map]
    refine hkey.imp ?_
    intro r s hrs hc
    exact hrs ⟨by
        rw [(updateFun_preserves rid a time r).2.1, (updateFun_preserves rid a time s).2.1] at hc
        exact hc.1, by
        rw [(updateFun_preserves rid a time r).2.2, (updateFun_preserves rid a time s).2.2] at hc
        exact hc.2⟩
  · intro r hr
    simp only [updateField, List.mem_map] at hr
    obtain ⟨s, hs, hmap⟩ := hr
    have := (updateFun_preserves rid a time s).1
    rw [hmap] at this
    rw [this]
    exact hbound s hs
  · unfold IdUnique updateField
    simp only
    rw [List.pairwise_map]
    refine hid.imp ?_
    intro r s hrs hc
    rw [(updateFun_preserves rid a time r).1, (updateFun_preserves rid a time s).1] at hc
    exact hrs hc

/-- Each POST /attendance submission preserves the store invariant. -/
theorem inv_recordAction (st : DB) (h : Inv st) (name : String) (a : Action)
    (date time : String) : Inv (recordAction st name a date time).1 := by
  unfold recordAction
  cases hfind : findByEmployeeAndDate st.rows name date with
  | none =>
    exact inv_insert st h name date a time hfind
  | some row =>
    simp only
    split
    · exact h
    · split
      · exact h
      · split
        · exact h
        · exact inv_updateField st h row.id a time

theorem inv_runRequests (st : DB) (h : Inv st) (reqs : List Request) :
    Inv (runRequests st reqs) := by
  induction reqs generalizing st with
  | nil => exact h
  | cons q qs ih =>
    exact ih _ (inv_recordAction st h q.employeeName q.action q.date q.time)

theorem countKey_le_one_of_keyUnique (st : DB) (h : KeyUnique st) (name date : String) :
    countKey st name date ≤ 1 := by
  unfold countKey
  unfold KeyUnique at h
  generalize st.rows = rows at h ⊢
  induction h with
  | nil => simp
  | @cons r rest hr hrest ih =>
    by_cases hp : (r.employeeName == name && r.date == date) = true
    · have hnil : rest.filter (fun s => s.employeeName == name && s.date == date) = [] := by
        apply List.filter_eq_nil_iff.mpr
        intro s hs hps
        simp only [Bool.and_eq_true, beq_iff_eq] at hp hps
        exact hr s hs ⟨hp.1.trans hps.1.symm, hp.2.trans hps.2.symm⟩
      simp [List.filter_cons, hp, hnil]
    · simp only [List.filter_cons, hp, if_false, Bool.false_eq_true]
      exact ih

/-- C1: starting from an empty store, any sequence of check-in / check-out
submissions leaves at most one row per (employeeName, date) pair: the handler
only inserts after the lookup for that exact pair returns no row, and the
update branch never changes a row's key. -/
theorem at_most_one_record_per_key (reqs : List Request) (name date : String) :
    countKey (runRequests emptyDB reqs) name date ≤ 1 :=
  countKey_le_one_of_keyUnique _ (inv_runRequests emptyDB inv_emptyDB reqs).1 name date

/-- C2: when the lookup finds no row for (employeeName, date), the handler
appends one fresh row: it carries the next AUTOINCREMENT id, the submitted
name, today's date, the submitted action's time field set to the current time
and the other time field NULL, and the handler renders the success page
(`Outcome.created`). -/
theorem recordAction_creates_new_record (st : DB) (name : String) (a : Action)
    (date time : String)
    (h : findByEmployeeAndDate st.rows name date = none) :
    (recordAction st name a date time).2 = Outcome.created ∧
    ∃ newRec : AttendanceRecord,
      (recordAction st name a date time).1.rows = st.rows ++ [newRec] ∧
      newRec.id = st.nextId ∧
      newRec.employeeName = name ∧
      newRec.date = date ∧
      getField a newRec = some time ∧
      getField a.other newRec = none := by
  unfold recordAction
  rw [h]
  refine ⟨rfl, _, rfl, rfl, rfl, rfl, ?_, ?_⟩ <;>
    cases a <;> simp [insert, getField, Action.other]

/-- C2 witness: the first check-in of a new day on an empty store. -/
theorem recordAction_creates_new_record_check :
    (recordAction emptyDB "Alice" Action.checkIn "2024-01-01" "9:00:00 AM").2 =
      Outcome.created ∧
    ∃ newRec : AttendanceRecord,
      (recordAction emptyDB "Alice" Action.checkIn "2024-01-01" "9:00:00 AM").1.rows =
        emptyDB.rows ++ [newRec] ∧
      newRec.id = emptyDB.nextId ∧
      newRec.employeeName = "Alice" ∧
      newRec.date = "2024-01-01" ∧
      getField Action.checkIn newRec = some "9:00:00 AM" ∧
      getField Action.checkIn.other newRec = none :=
  recordAction_creates_new_record emptyDB "Alice" Action.checkIn "2024-01-01" "9:00:00 AM" rfl

/-- C3: on an existing row for (employeeName, date), a row with both time
fields set is rejected with the combined message whatever action is submitted
(that guard is the first test of the branch), and otherwise a row that already
holds the submitted action's field is rejected with that action's specific
message; the store is unchanged in both cases. -/
theorem recordAction_rejection_rules (st : DB) (name : String) (a : Action)
    (date time : String) (row : AttendanceRecord)
    (hfind : findByEmployeeAndDate st.rows name date = some row) :
    (truthy row.checkIn = true → truthy row.checkOut = true →
      recordAction st name a date time =
        (st, Outcome.rejected "You have already checked in and out for today.")) ∧
    (¬(truthy row.checkIn = true ∧ truthy row.checkOut = true) →
      truthy (getField a row) = true →
      recordAction st name a date time = (st, Outcome.rejected (specificMessage a))) := by
  unfold recordAction
  rw [hfind]
  constructor
  · intro h1 h2
    simp [h1, h2]
  · intro hnb hset
    cases a with
    | checkIn =>
      simp only [getField] at hset
      have hco : truthy row.checkOut = false := by
        cases hx : truthy row.checkOut
        · rfl
        · exact absurd ⟨hset, hx⟩ hnb
      simp [hset, hco, specificMessage]
    | checkOut =>
      simp only [getField] at hset
      have hci : truthy row.checkIn = false := by
        cases hx : truthy row.checkIn
        · rfl
        · exact absurd ⟨hx, hset⟩ hnb
      simp [hset, hci, specificMessage]

/-- C3 witness: a fully complete row rejects a resubmitted check-out with the
combined message. -/
theorem recordAction_rejection_rules_check :
    recordAction
        ⟨[⟨1, "Alice", "2024-01-01", some "9:00:00 AM", some "6:00:00 PM"⟩], 2⟩
        "Alice" Action.checkOut "2024-01-01" "7:00:00 PM" =
      (⟨[⟨1, "Alice", "2024-01-01", some "9:00:00 AM", some "6:00:00 PM"⟩], 2⟩,
        Outcome.rejected "You have already checked in and out for today.") :=
  (recordAction_rejection_rules
      ⟨[⟨1, "Alice", "2024-01-01", some "9:00:00 AM", some "6:00:00 PM"⟩], 2⟩
      "Alice" Action.checkOut "2024-01-01" "7:00:00 PM"
      ⟨1, "Alice", "2024-01-01", some "9:00:00 AM", some "6:00:00 PM"⟩
      (by decide)).1 (by decide) (by decide)

/-- Under pairwise-distinct ids, two rows of the table with the same id are
the same row. -/
theorem eq_of_id_eq (l : List AttendanceRecord)
    (h : l.Pairwise (fun r s => r.id ≠ s.id)) :
    ∀ r ∈ l, ∀ s ∈ l, r.id = s.id → r = s := by
  induction h with
  | nil => intro r hr; simp at hr
  | @cons a rest ha hrest ih =>
    intro r hr s hs hid
    rcases List.mem_cons.mp hr with hr1 | hr1
    · rcases List.mem_cons.mp hs with hs1 | hs1
      · rw [hr1, hs1]
      · subst hr1
        exact absurd hid (ha s hs1)
    · rcases List.mem_cons.mp hs with hs1 | hs1
      · subst hs1
        exact absurd hid.symm (ha r hr1)
      · exact ih r hr1 s hs1 hid

/-- C4: time fields are write-once.  First conjunct: whatever one further
submission does, every truthy (set) time field of every stored row survives
with its value intact on the row with the same id.  Second conjunct: the
update branch (row found, submitted action's field not yet set) renders the
success page and rewrites the table by setting exactly the submitted action's
field on the matching row, `setField` leaving id, employeeName, date and the
other time field untouched. -/
theorem recordAction_fields_write_once (st : DB) (hinv : Inv st) (name : String)
    (a : Action) (date time : String) :
    (∀ r ∈ st.rows, ∀ f : Action, truthy (getField f r) = true →
      ∃ r' ∈ (recordAction st name a date time).1.rows,
        r'.id = r.id ∧ getField f r' = getField f r) ∧
    (∀ row : AttendanceRecord,
      findByEmployeeAndDate st.rows name date = some row →
      truthy (getField a row) = false →
      (recordAction st name a date time).2 = Outcome.updated ∧
      (recordAction st name a date time).1.rows =
        st.rows.map (fun r => if r.id == row.id then setField a time r else r) ∧
      ∀ r : AttendanceRecord,
        (setField a time r).id = r.id ∧
        (setField a time r).employeeName = r.employeeName ∧
        (setField a time r).date = r.date ∧
        getField a.other (setField a time r) = getField a.other r ∧
        getField a (setField a time r) = some time) := by
  constructor
  · intro r hr f hf
    unfold recordAction
    cases hfind : findByEmployeeAndDate st.rows name date with
    | none =>
      exact ⟨r, by simp [insert, hr], rfl, rfl⟩
    | some row =>
      have hrowmem : row ∈ st.rows := List.mem_of_find?_eq_some hfind
      by_cases g1 : (truthy row.checkIn && truthy row.checkOut) = true
      · simp only [g1, if_true]
        exact ⟨r, hr, rfl, rfl⟩
      · by_cases g2 : (a == Action.checkIn && truthy row.checkIn) = true
        · simp only [g1, g2, if_true, Bool.false_eq_true, if_false]
          exact ⟨r, hr, rfl, rfl⟩
        · by_cases g3 : (a == Action.checkOut && truthy row.checkOut) = true
          · simp only [g1, g2, g3, if_true, Bool.false_eq_true, if_false]
            exact ⟨r, hr, rfl, rfl⟩
          · simp only [g1, g2, g3, Bool.false_eq_true, if_false]
            refine ⟨if r.id == row.id then setField a time r else r, ?_, ?_, ?_⟩
            · simp only [updateField, List.mem_map]
              exact ⟨r, hr, rfl⟩
            · exact (updateFun_preserves row.id a time r).1
            · by_cases hid : (r.id == row.id) = true
              · have hreq : r = row :=
                  eq_of_id_eq st.rows hinv.2.2 r hr row hrowmem (beq_iff_eq.mp hid)
                have hfa : f ≠ a := by
                  intro hfa
                  subst hfa
                  subst hreq
                  cases f with
                  | checkIn =>
                    simp only [getField] at hf
                    simp [hf] at g2
                  | checkOut =>
                    simp only [getField] at hf
                    simp [hf] at g3
                simp only [hid, if_true]
                exact getField_setField_other f a time r hfa
              · simp only [hid, Bool.false_eq_true, if_false]
  · intro row hfind hset
    unfold recordAction
    rw [hfind]
    have g1 : (truthy row.checkIn && truthy row.checkOut) = false := by
      cases a <;> simp only [getField] at hset <;> simp [hset]
    have g2 : (a == Action.checkIn && truthy row.checkIn) = false := by
      cases a <;> simp only [getField] at hset <;> simp [hset]
    have g3 : (a == Action.checkOut && truthy row.checkOut) = false := by
      cases a <;> simp only [getField] at hset <;> simp [hset]
    simp only [g1, g2, g3, Bool.false_eq_true, if_false]
    refine ⟨by trivial, by trivial, ?_⟩
    intro r
    refine ⟨setField_id a time r, setField_employeeName a time r, setField_date a time r,
      ?_, getField_setField_same a time r⟩
    cases a <;> rfl

/-- C4 witness: a stored morning check-in survives, unchanged, an afternoon
check-out submission by the same employee on the same day. -/
theorem recordAction_fields_write_once_check :
    ∃ r' ∈ (recordAction ⟨[⟨1, "Alice", "2024-01-01", some "9:00:00 AM", none⟩], 2⟩
        "Alice" Action.checkOut "2024-01-01" "6:00:00 PM").1.rows,
      r'.id = (⟨1, "Alice", "2024-01-01", some "9:00:00 AM", none⟩ : AttendanceRecord).id ∧
      getField Action.checkIn r' =
        getField Action.checkIn (⟨1, "Alice", "2024-01-01", some "9:00:00 AM", none⟩ : AttendanceRecord) :=
  (recordAction_fields_write_once
      ⟨[⟨1, "Alice", "2024-01-01", some "9:00:00 AM", none⟩], 2⟩
      ⟨by unfold KeyUnique; decide, by unfold IdBound; decide, by unfold IdUnique; decide⟩
      "Alice" Action.checkOut "2024-01-01" "6:00:00 PM").1
    ⟨1, "Alice", "2024-01-01", some "9:00:00 AM", none⟩ (by decide)
    Action.checkIn (by decide)

/-- The text of the INSERT statement built at src/server.js:74: the third
column name is the raw `action` request parameter, concatenated into the SQL
string with no sanitization. -/
def sqlInsert (action : String) : String :=
  "INSERT INTO attendance (employeeName, date, " ++ action ++ ") VALUES (?, ?, ?)"

/-- The text of the UPDATE statement built at src/server.js:98: the assigned
column name is the raw `action` request parameter. -/
def sqlUpdate (action : String) : String :=
  "UPDATE attendance SET " ++ action ++ " = ? WHERE id = ?"

/-- The column list named by the INSERT statement of src/server.js:74. -/
def insertColumns (action : String) : List String := ["employeeName", "date", action]

/-- The column assigned by the UPDATE statement of src/server.js:98. -/
def updateColumn (action : String) : String := action

/-- C5 counterexample: a request submitting the action value "date" makes the
UPDATE statement assign the `date` column — a column name outside
{checkIn, checkOut}, derived directly from external input. -/
theorem sql_column_not_restricted :
    sqlUpdate "date" = "UPDATE attendance SET date = ? WHERE id = ?" ∧
    updateColumn "date" ≠ "checkIn" ∧
    updateColumn "date" ≠ "checkOut" ∧
    insertColumns "notAColumn" = ["employeeName", "date", "notAColumn"] :=
  ⟨rfl, by decide, by decide, rfl⟩

/-- C5 amended: the column name the statements write is the raw action
parameter itself, so it lies in {checkIn, checkOut} exactly when the client
happens to submit one of those two literal strings; nothing in the handler
restricts or sanitizes it. -/
theorem sql_column_is_raw_action (action : String) :
    updateColumn action = action ∧
    insertColumns action = ["employeeName", "date", action] ∧
    sqlUpdate action = "UPDATE attendance SET " ++ updateColumn action ++ " = ? WHERE id = ?" ∧
    ((updateColumn action = "checkIn" ∨ updateColumn action = "checkOut") ↔
      (action = "checkIn" ∨ action = "checkOut")) :=
  ⟨rfl, rfl, rfl, Iff.rfl⟩

/-- C6 counterexample: a submission with an empty employeeName is not
rejected: on an empty store the handler runs the lookup, inserts a row whose
employeeName is the empty string and renders the success page. -/
theorem no_validation_on_empty_name :
    (recordAction emptyDB "" Action.checkIn "2024-01-01" "9:00:00 AM").2 =
      Outcome.created ∧
    (recordAction emptyDB "" Action.checkIn "2024-01-01" "9:00:00 AM").1.rows =
      [⟨1, "", "2024-01-01", some "9:00:00 AM", none⟩] :=
  ⟨rfl, by decide⟩

/-- C6 amended: the handler performs no input validation at all: a missing or
empty employeeName flows into the store like any other value (on a store with
no matching row a record with that name is created and the success page
rendered), and the action parameter flows into the SQL text unchecked. -/
theorem no_validation_before_store (a : Action) (date time : String) (act : String) :
    (recordAction emptyDB "" a date time).2 = Outcome.created ∧
    (recordAction emptyDB "" a date time).1.rows.length = 1 ∧
    (∀ r ∈ (recordAction emptyDB "" a date time).1.rows, r.employeeName = "") ∧
    updateColumn act = act := by
  refine ⟨rfl, rfl, ?_, rfl⟩
  intro r hr
  simp only [recordAction, findByEmployeeAndDate, emptyDB, List.find?_nil,
    insert, List.nil_append, List.mem_singleton] at hr
  rw [hr]

/-- SQLite `date BETWEEN ? AND ?` with two bound parameters
(src/server.js:132,150): comparing with a NULL bound yields NULL, which the
WHERE clause drops, so a missing bound matches no row; TEXT comparison is
byte-wise, which on the stored strings coincides with lexicographic string
order. -/
def betweenBounds (d : String) : Option String → Option String → Bool
  | some s, some e => decide (s ≤ d) && decide (d ≤ e)
  | _, _ => false

/-- The ORDER BY comparator of src/server.js:132,150: date descending, then
employeeName ascending. -/
def reportLe (r1 r2 : AttendanceRecord) : Bool :=
  if r1.date = r2.date then decide (r1.employeeName ≤ r2.employeeName)
  else decide (r2.date < r1.date)

/-- `SELECT * FROM attendance WHERE date BETWEEN ? AND ? ORDER BY date DESC,
employeeName` (src/server.js:132 and 150): the rows in range, sorted under
`reportLe`. -/
def queryRange (st : DB) (s e : Option String) : List AttendanceRecord :=
  (st.rows.filter (fun r => betweenBounds r.date s e)).mergeSort reportLe

theorem reportLe_iff (r1 r2 : AttendanceRecord) :
    reportLe r1 r2 = true ↔
      r2.date < r1.date ∨ (r1.date = r2.date ∧ r1.employeeName ≤ r2.employeeName) := by
  unfold reportLe
  split
  · rename_i h
    simp only [decide_eq_true_eq, h, lt_irrefl, false_or, true_and]
  · rename_i h
    simp only [decide_eq_true_eq]
    constructor
    · exact Or.inl
    · rintro (hlt | ⟨heq, _⟩)
      · exact hlt
      · exact absurd heq h

theorem reportLe_total (r1 r2 : AttendanceRecord) : reportLe r1 r2 || reportLe r2 r1 := by
  rcases lt_trichotomy r1.date r2.date with h | h | h
  · have : reportLe r2 r1 = true := (reportLe_iff r2 r1).mpr (Or.inl h)
    simp [this]
  · rcases le_total r1.employeeName r2.employeeName with hn | hn
    · have : reportLe r1 r2 = true := (reportLe_iff r1 r2).mpr (Or.inr ⟨h, hn⟩)
      simp [this]
    · have : reportLe r2 r1 = true := (reportLe_iff r2 r1).mpr (Or.inr ⟨h.symm, hn⟩)
      simp [this]
  · have : reportLe r1 r2 = true := (reportLe_iff r1 r2).mpr (Or.inl h)
    simp [this]

theorem reportLe_trans (r1 r2 r3 : AttendanceRecord) :
    reportLe r1 r2 → reportLe r2 r3 → reportLe r1 r3 := by
  intro h12 h23
  rw [reportLe_iff] at h12 h23 ⊢
  rcases h12 with h12 | ⟨he12, hn12⟩
  · rcases h23 with h23 | ⟨he23, _⟩
    · exact Or.inl (lt_trans h23 h12)
    · exact Or.inl (he23 ▸ h12)
  · rcases h23 with h23 | ⟨he23, hn23⟩
    · exact Or.inl (he12 ▸ h23)
    · exact Or.inr ⟨he12.trans he23, le_trans hn12 hn23⟩

/-- C7: the range query returns exactly the rows whose date lies in the
inclusive interval [startDate, endDate] (a permutation of the filtered table,
with membership characterized by the inclusive bounds), sorted by date
descending then employeeName ascending, and yields the empty list — not an
error — when nothing matches. -/
theorem queryRange_spec (st : DB) (s e : String) :
    List.Perm (queryRange st (some s) (some e))
        (st.rows.filter (fun r => betweenBounds r.date (some s) (some e))) ∧
    (queryRange st (some s) (some e)).Pairwise
        (fun r1 r2 => r2.date < r1.date ∨
          (r1.date = r2.date ∧ r1.employeeName ≤ r2.employeeName)) ∧
    (∀ r, r ∈ queryRange st (some s) (some e) ↔
      r ∈ st.rows ∧ s ≤ r.date ∧ r.date ≤ e) ∧
    ((∀ r ∈ st.rows, ¬(s ≤ r.date ∧ r.date ≤ e)) →
      queryRange st (some s) (some e) = []) := by
  refine ⟨List.mergeSort_perm _ _, ?_, ?_, ?_⟩
  · have hs := List.sorted_mergeSort
      (fun a b c => reportLe_trans a b c)
      (fun a b => reportLe_total a b)
      (st.rows.filter (fun r => betweenBounds r.date (some s) (some e)))
    exact hs.imp (fun h => (reportLe_iff _ _).mp h)
  · intro r
    unfold queryRange
    rw [List.mem_mergeSort, List.mem_filter]
    simp [betweenBounds]
  · intro h
    unfold queryRange
    have : st.rows.filter (fun r => betweenBounds r.date (some s) (some e)) = [] := by
      apply List.filter_eq_nil_iff.mpr
      intro r hr
      simp only [betweenBounds, Bool.and_eq_true, decide_eq_true_eq]
      intro hc
      exact h r hr hc
    rw [this, List.mergeSort_nil]

/-- C7 witness: on a store with no rows the query over any range returns the
empty list rather than failing. -/
theorem queryRange_spec_check :
    queryRange emptyDB (some "2024-01-01") (some "2024-01-31") = [] :=
  (queryRange_spec emptyDB "2024-01-01" "2024-01-31").2.2.2 (by decide)

/-- What the download-report route can send back (src/server.js:153-190). -/
inductive DownloadResponse where
  | serverError (message : String)
  | notFound404 (message : String)
  | fileSent
  deriving Repr, DecidableEq

/-- The csv-writer header configuration of src/server.js:163-169: the column
keys in their fixed order, each with its human-readable title. -/
def csvHeader : List (String × String) :=
  [("id", "ID"), ("employeeName", "Employee Name"), ("date", "Date"),
   ("checkIn", "Check In"), ("checkOut", "Check Out")]

/-- How csv-writer renders one record row under `csvHeader`: one cell per
header key in header order, NULL as an empty cell. -/
def recordToRow (r : AttendanceRecord) : List String :=
  [toString r.id, r.employeeName, r.date, r.checkIn.getD "", r.checkOut.getD ""]

/-- The result of report generation: `notFound` when the range query matches
nothing (the route answers 404 and builds no CSV), otherwise the header and
the rendered rows handed to csv-writer. -/
inductive ReportResult where
  | notFound
  | table (header : List (String × String)) (rowsData : List (List String))
  deriving Repr, DecidableEq

/-- The report-generation decision of GET /download-report
(src/server.js:157-173). -/
def generateReport (st : DB) (s e : Option String) : ReportResult :=
  let rows := queryRange st s e
  if rows.isEmpty then ReportResult.notFound
  else ReportResult.table csvHeader (rows.map recordToRow)

/-- GET /download-report (src/server.js:146-193), with its two I/O outcomes
made explicit: `writeOk` is whether `csvWriter.writeRecords` resolves,
`handoffOk` whether the `res.download` hand-off succeeds (its callback runs
without an error).  The returned Bool is whether the temporary CSV file is
still on disk when the handler is done: the source unlinks it only inside the
success branch of the download callback (src/server.js:176-186); a failing
`writeRecords` is modelled as leaving no completed artifact. -/
def downloadReportHandler (st : DB) (s e : Option String) (writeOk handoffOk : Bool) :
    DownloadResponse × Bool :=
  let rows := queryRange st s e
  if rows.isEmpty then
    (DownloadResponse.notFound404 "No records found for the selected date range.", false)
  else if writeOk then
    if handoffOk then
      (DownloadResponse.fileSent, false)
    else
      (DownloadResponse.serverError "An error occurred while downloading the report.", true)
  else
    (DownloadResponse.serverError "An error occurred while generating the report.", false)

/-- A one-row store used to evaluate the read path on concrete data. -/
def sampleRec : AttendanceRecord :=
  ⟨1, "Alice", "2024-01-01", some "9:00:00 AM", some "6:00:00 PM"⟩

/-- The store holding just `sampleRec`. -/
def sampleDB : DB := ⟨[sampleRec], 2⟩

/-- Concrete evaluation of the range query on `sampleDB` with both bounds
equal to the stored date. -/
theorem queryRange_sampleDB :
    queryRange sampleDB (some "2024-01-01") (some "2024-01-01") = [sampleRec] := by
  unfold queryRange sampleDB
  simp [List.filter, betweenBounds, sampleRec]

/-- C8: when the range query matches nothing, the route answers 404
("no records") and produces no artifact, for every outcome of the I/O steps;
otherwise the generated table carries the fixed header with column keys
id, employeeName, date, checkIn, checkOut in that order, and one rendered row
per queried record. -/
theorem generateReport_spec (st : DB) (s e : Option String) :
    (queryRange st s e = [] →
      generateReport st s e = ReportResult.notFound ∧
      ∀ w h : Bool, downloadReportHandler st s e w h =
        (DownloadResponse.notFound404 "No records found for the selected date range.",
          false)) ∧
    (queryRange st s e ≠ [] →
      generateReport st s e =
        ReportResult.table csvHeader ((queryRange st s e).map recordToRow) ∧
      csvHeader.map Prod.fst = ["id", "employeeName", "date", "checkIn", "checkOut"]) := by
  constructor
  · intro h
    unfold generateReport downloadReportHandler
    rw [h]
    exact ⟨rfl, fun w hh => rfl⟩
  · intro h
    unfold generateReport
    have hne : (queryRange st s e).isEmpty = false := List.isEmpty_eq_false.mpr h
    simp only [hne, Bool.false_eq_true, if_false]
    exact ⟨by trivial, by trivial⟩

/-- C8 witness: on `sampleDB` the query is nonempty and the table carries the
fixed header and Alice's rendered row. -/
theorem generateReport_spec_check :
    generateReport sampleDB (some "2024-01-01") (some "2024-01-01") =
      ReportResult.table csvHeader
        ((queryRange sampleDB (some "2024-01-01") (some "2024-01-01")).map recordToRow) ∧
    csvHeader.map Prod.fst = ["id", "employeeName", "date", "checkIn", "checkOut"] :=
  (generateReport_spec sampleDB (some "2024-01-01") (some "2024-01-01")).2
    (by rw [queryRange_sampleDB]; exact List.cons_ne_nil _ _)

/-- C9 counterexample: with one matching row, a successful CSV write followed
by a failed `res.download` hand-off sends a 500 and leaves the temporary file
on disk — the unlink only runs on the success path. -/
theorem leaked_artifact_on_failed_handoff :
    downloadReportHandler sampleDB (some "2024-01-01") (some "2024-01-01") true false =
      (DownloadResponse.serverError "An error occurred while downloading the report.",
        true) := by
  unfold downloadReportHandler
  rw [queryRange_sampleDB]
  rfl

/-- C9 amended: the artifact is removed only on the success path of the
hand-off: when the query is nonempty and the CSV write succeeds, a successful
hand-off ends with the file deleted, while a failed hand-off sends a 500 with
the temporary file still on disk. -/
theorem artifact_cleanup_only_on_success (st : DB) (s e : Option String)
    (h : queryRange st s e ≠ []) :
    downloadReportHandler st s e true true = (DownloadResponse.fileSent, false) ∧
    downloadReportHandler st s e true false =
      (DownloadResponse.serverError "An error occurred while downloading the report.",
        true) := by
  unfold downloadReportHandler
  have hne : (queryRange st s e).isEmpty = false := List.isEmpty_eq_false.mpr h
  simp only [hne, Bool.false_eq_true, if_false]
  exact ⟨rfl, rfl⟩

/-- C9 amended-claim witness: both hand-off outcomes evaluated on `sampleDB`. -/
theorem artifact_cleanup_only_on_success_check :
    downloadReportHandler sampleDB (some "2024-01-01") (some "2024-01-01") true true =
      (DownloadResponse.fileSent, false) ∧
    downloadReportHandler sampleDB (some "2024-01-01") (some "2024-01-01") true false =
      (DownloadResponse.serverError "An error occurred while downloading the report.",
        true) :=
  artifact_cleanup_only_on_success sampleDB (some "2024-01-01") (some "2024-01-01")
    (by rw [queryRange_sampleDB]; exact List.cons_ne_nil _ _)

/-- A BETWEEN with a missing left bound matches no row, so the query over
(NULL, e) is empty. -/
theorem queryRange_none_left (st : DB) (e : Option String) :
    queryRange st none e = [] := by
  unfold queryRange
  have hf : st.rows.filter (fun r => betweenBounds r.date none e) = [] := by
    apply List.filter_eq_nil_iff.mpr
    intro r hr
    simp [betweenBounds]
  rw [hf, List.mergeSort_nil]

/-- A BETWEEN with a missing right bound matches no row, so the query over
(s, NULL) is empty. -/
theorem queryRange_none_right (st : DB) (s : Option String) :
    queryRange st s none = [] := by
  unfold queryRange
  have hf : st.rows.filter (fun r => betweenBounds r.date s none) = [] := by
    apply List.filter_eq_nil_iff.mpr
    intro r hr
    cases s <;> simp [betweenBounds]
  rw [hf, List.mergeSort_nil]

/-- JS `x || y` applied to an optional query parameter (src/server.js:127-128):
an absent parameter and the empty string both fall back to the default. -/
def jsOr (p : Option String) (d : String) : String :=
  match p with
  | none => d
  | some s => if s = "" then d else s

/-- The date defaulting of GET /admin (src/server.js:122-129): when either
parameter is falsy, both are reassigned with `x || today`; otherwise the
supplied values are used as-is. -/
def adminDates (startP endP : Option String) (today : String) : String × String :=
  if !truthy startP || !truthy endP then (jsOr startP today, jsOr endP today)
  else (startP.getD "", endP.getD "")

/-- The record list GET /admin renders (src/server.js:132-142): the range
query over the defaulted bounds. -/
def adminRecords (st : DB) (startP endP : Option String) (today : String) :
    List AttendanceRecord :=
  queryRange st (some (adminDates startP endP today).1)
    (some (adminDates startP endP today).2)

/-- C10: GET /admin defaults each missing bound independently to the current
date (so its query always runs with two defined bounds), while
GET /download-report queries with the parameters exactly as supplied — an
absent bound there is a NULL in the BETWEEN, which matches nothing, so every
such request is answered 404 whatever the store holds. -/
theorem admin_defaults_download_does_not (st : DB) (startP endP : Option String)
    (today : String) :
    adminDates startP endP today = (jsOr startP today, jsOr endP today) ∧
    (startP = none → (adminDates startP endP today).1 = today) ∧
    (endP = none → (adminDates startP endP today).2 = today) ∧
    adminRecords st startP endP today =
      queryRange st (some (jsOr startP today)) (some (jsOr endP today)) ∧
    (∀ w h : Bool, (downloadReportHandler st none endP w h).1 =
      DownloadResponse.notFound404 "No records found for the selected date range.") ∧
    (∀ w h : Bool, (downloadReportHandler st startP none w h).1 =
      DownloadResponse.notFound404 "No records found for the selected date range.") := by
  have hmain : adminDates startP endP today = (jsOr startP today, jsOr endP today) := by
    unfold adminDates
    split
    · rfl
    · rename_i hcond
      simp only [Bool.or_eq_true, Bool.not_eq_true'] at hcond
      push_neg at hcond
      obtain ⟨hs, ht⟩ := hcond
      rw [Bool.ne_false_iff] at hs ht
      cases startP with
      | none => simp [truthy] at hs
      | some s =>
        cases endP with
        | none => simp [truthy] at ht
        | some t =>
          simp only [truthy, bne_iff_ne, ne_eq] at hs ht
          simp [jsOr, hs, ht]
  refine ⟨hmain, ?_, ?_, ?_, ?_, ?_⟩
  · intro h
    subst h
    rw [hmain]
    rfl
  · intro h
    subst h
    rw [hmain]
    rfl
  · unfold adminRecords
    rw [hmain]
  · intro w h
    unfold downloadReportHandler
    rw [queryRange_none_left]
    rfl
  · intro w h
    unfold downloadReportHandler
    rw [queryRange_none_right]
    rfl

/-- C10 witness: with one bound absent, the other supplied, the admin query
bounds become today for the missing one. -/
theorem admin_defaults_check :
    (adminDates none (some "2024-02-02") "2024-01-15").1 = "2024-01-15" ∧
    (adminDates (some "2024-02-02") none "2024-01-15").2 = "2024-01-15" :=
  ⟨(admin_defaults_download_does_not emptyDB none (some "2024-02-02") "2024-01-15").2.1 rfl,
   (admin_defaults_download_does_not emptyDB (some "2024-02-02") none "2024-01-15").2.2.1 rfl⟩

end Attendance
